import Mathlib

/-!
# Verification of the Hospital Bed dashboard core (`hospital_app.py`)

Shallow embedding of the synthetic dataset generator and the
filter/aggregation pipeline of `hospital_app.py`, with proofs of the
specification's claims about them.

Conventions of the embedding:
* A pandas `DataFrame` of bed rows is a `List BedRecord`.
* A row's `date` is a full timestamp embedded as `Nat` microseconds since
  the epoch: `datetime.today()` (line 32) carries wall-clock time-of-day at
  microsecond resolution, and `pd.date_range` (default `normalize=False`)
  copies that time-of-day into all 30 generated timestamps, spaced exactly
  one day apart.  Theorems about the generator quantify over an arbitrary
  date list where the concrete window does not matter.
* `np.random.seed(42)` / `np.random.randint(lo, hi)` — the seeded stream of
  draws is external to the repository (spec §6 treats the PRNG as an
  external interface).  The generator is parameterised by the raw stream
  `raw : Nat → Nat`; draw number `k` of `randint lo hi` is
  `lo + raw k % (hi - lo)`, which realises the contract "uniform integer in
  the half-open range `[lo, hi)`".
* Python floats (`occupied/total*100`, `.mean()`) are embedded as exact
  rationals `ℚ`; the claims are order/range claims, which the exact value
  settles.
-/

/-! ## Definitions: the embedded program -/

/-- One generated bed row (`data.append({...})` in `generate_data`,
lines 44–50 of `hospital_app.py`). -/
structure BedRecord where
  date : Nat
  hospital : String
  ward : String
  bed_id : String
  occupied : Nat
deriving DecidableEq, Repr

/-- The constant `hospitals = ["City Hospital", "Central Hospital", "National Medical Center"]`. -/
def hospitals : List String := ["City Hospital", "Central Hospital", "National Medical Center"]

/-- The constant `wards = ["ICU", "Emergency", "General", "Maternity"]`. -/
def wards : List String := ["ICU", "Emergency", "General", "Maternity"]

/-- The ward→capacity lookup
`{"ICU": 20, "Emergency": 30, "General": 50, "Maternity": 25}[ward]`
(line 40).  The lookup is only ever applied to the four ward names. -/
def capacity : String → Nat
  | "ICU" => 20
  | "Emergency" => 30
  | "General" => 50
  | "Maternity" => 25
  | _ => 0

/-- The bed identifier string: the source writes the f-string `"B-"` followed
by the decimal form of the counter `bed_no` (line 48). -/
def mkBedId (n : Nat) : String := "B-" ++ Nat.repr n

/-- The draw `np.random.randint(lo, hi)`: draw number `k` of a uniform integer in
`[lo, hi)` taken from the raw seeded stream `raw`. -/
def randint (raw : Nat → Nat) (k lo hi : Nat) : Nat := lo + raw k % (hi - lo)

/-- The inner loop `for i in range(capacity)` of `generate_data`
(lines 43–51): one group's `capacity` rows, bed ids continuing the global
counter from `bedStart`, the first `occ` slots occupied. -/
def genGroup (d : Nat) (h w : String) (occ : Nat) (bedStart : Nat) : List BedRecord :=
  (List.range (capacity w)).map fun i =>
    ⟨d, h, w, mkBedId (bedStart + i), if i < occ then 1 else 0⟩

/-- The (date, hospital, ward) triples in generation order: the triple
loop `for date in dates: for hosp in hospitals: for ward in wards`
(lines 37–39). -/
def groups (dates : List Nat) : List (Nat × String × String) :=
  dates.flatMap fun d => hospitals.flatMap fun h => wards.map fun w => (d, h, w)

/-- The body of `generate_data` run over a list of remaining groups,
threading the index `k` of the next random draw and the global bed counter
`bedNo` (`bed_no` in the source, line 35, incremented once per row). -/
def genAux (raw : Nat → Nat) : List (Nat × String × String) → Nat → Nat → List BedRecord
  | [], _, _ => []
  | (d, h, w) :: gs, k, bedNo =>
    let cap := capacity w
    let occ := randint raw k (cap / 2) cap
    genGroup d h w occ bedNo ++ genAux raw gs (k + 1) (bedNo + cap)

/-- The function `generate_data` (lines 27–53): the full BedRecord list, bed counter
starting at 1, draw index starting at 0.  `int(capacity*0.5)` is `cap / 2`
for the four (even- or odd-) capacities in use. -/
def generate_data (raw : Nat → Nat) (dates : List Nat) : List BedRecord :=
  genAux raw (groups dates) 0 1

/-- Microseconds per calendar day.  The source's `datetime.today()`
(line 32) is a datetime with wall-clock time-of-day down to microseconds,
and `pd.date_range` (default `normalize=False`) copies that time-of-day
into every generated timestamp, hence into every row's `date`. -/
def usPerDay : Nat := 86400000000

/-- The calendar day a timestamp falls on. -/
def calendarDay (ts : Nat) : Nat := ts / usPerDay

/-- The window `pd.date_range(end=today, periods=30)` (line 32): 30
timestamps spaced one day apart ending at the exact instant `today`, each
carrying `today`'s time-of-day (we take `today` at least 29 days past the
epoch, i.e. any actual date). -/
def date_range (today : Nat) : List Nat :=
  (List.range 30).map fun i => today - (29 - i) * usPerDay

/-- Modelled from the spec: the repository relies on an external "seeded
pseudo-random number generator supporting uniform integer draws, with
reproducible sequencing given a fixed seed" (spec §6).  NumPy's generator is
not part of the repository; any concrete deterministic stream realises that
contract, we use a 32-bit linear congruential generator. -/
def lcgState (seed : Nat) : Nat → Nat
  | 0 => seed % 2 ^ 32
  | k + 1 => (1664525 * lcgState seed k + 1013904223) % 2 ^ 32

/-- The raw draw stream produced by seeding the modelled PRNG with `seed`. -/
def rngStream (seed : Nat) (k : Nat) : Nat := lcgState seed (k + 1)

/-- One full run of the generator at the reference instant `today`: seed
the stream (`np.random.seed(42)` with `seed = 42`) and generate over the
30-day window ending at `today`. -/
def datasetAt (seed today : Nat) : List BedRecord :=
  generate_data (rngStream seed) (date_range today)

/-- The numeric value of a decimal digit character. -/
def charVal (c : Char) : Nat := c.toNat - 48

/-- Read a digit string (most significant first) back to a number. -/
def ofDigitChars (l : List Char) : Nat := l.foldl (fun acc c => acc * 10 + charVal c) 0

/-- The grouping key of a row. -/
def rkey (r : BedRecord) : Nat × String × String := (r.date, r.hospital, r.ward)

/-- All rows of the generated dataset belonging to one (date, hospital, ward)
group. -/
def groupRows (raw : Nat → Nat) (dates : List Nat) (d : Nat) (h w : String) : List BedRecord :=
  (generate_data raw dates).filter fun r => decide (rkey r = (d, h, w))

/-- The 12 (hospital, ward) pairs of the two inner loops. -/
def pairsHW : List (String × String) := hospitals.flatMap fun h => wards.map fun w => (h, w)

/-- The groups of one date: the two inner loops with `date` fixed. -/
def perDate (d : Nat) : List (Nat × String × String) :=
  hospitals.flatMap fun h => wards.map fun w => (d, h, w)

/-- Total capacity of a list of groups. -/
def sumCap (gs : List (Nat × String × String)) : Nat := (gs.map fun g => capacity g.2.2).sum

/-- The sidebar selections (lines 60–83) consumed by the filter pipeline:
`hospital` (selectbox, with the "All" sentinel), `ward` (multiselect list),
`bed_status` (radio: "All" / "Available" / "Occupied"), `critical_view`
(checkbox) and the inclusive date-range slider endpoints. -/
structure FilterCriteria where
  hospital : String
  ward : List String
  bed_status : String
  critical_view : Bool
  date_lo : Nat
  date_hi : Nat
deriving DecidableEq, Repr

/-- The filtering section (lines 86–104): the five sequential steps applied
to `data = df.copy()`. -/
def apply_filters (c : FilterCriteria) (df : List BedRecord) : List BedRecord :=
  let data := df
  let data :=
    if c.hospital ≠ "All" then data.filter (fun r => r.hospital == c.hospital) else data
  let data := data.filter fun r => c.ward.contains r.ward
  let data :=
    if c.critical_view then data.filter (fun r => ["ICU", "Emergency"].contains r.ward)
    else data
  let data :=
    if c.bed_status == "Available" then data.filter (fun r => r.occupied == 0)
    else if c.bed_status == "Occupied" then data.filter (fun r => r.occupied == 1)
    else data
  data.filter fun r => decide (c.date_lo ≤ r.date) && decide (r.date ≤ c.date_hi)

/-- The row-level predicate of each of the five filter steps (numbered in
source order); a step whose sidebar control is in its "All"/off state keeps
every row. -/
def stepPred (c : FilterCriteria) : Nat → BedRecord → Bool
  | 0 => fun r => c.hospital == "All" || r.hospital == c.hospital
  | 1 => fun r => c.ward.contains r.ward
  | 2 => fun r => !c.critical_view || ["ICU", "Emergency"].contains r.ward
  | 3 => fun r =>
      if c.bed_status == "Available" then r.occupied == 0
      else if c.bed_status == "Occupied" then r.occupied == 1
      else true
  | 4 => fun r => decide (c.date_lo ≤ r.date) && decide (r.date ≤ c.date_hi)
  | _ => fun _ => true

/-- Run one filter step on a row set. -/
def applyStep (c : FilterCriteria) (rows : List BedRecord) (i : Nat) : List BedRecord :=
  rows.filter (stepPred c i)

/-- Sample inputs used to instantiate theorems that carry hypotheses. -/
def sampleRows : List BedRecord := generate_data (fun _ => 0) [0, 1]

/-- A sample criteria value with every control in its default state. -/
def sampleCriteria : FilterCriteria :=
  ⟨"All", ["ICU", "Emergency", "General", "Maternity"], "All", false, 0, 100⟩

/-- A sample criteria value with the critical-only checkbox on and wards
ICU and General selected. -/
def sampleCriticalCriteria : FilterCriteria :=
  ⟨"All", ["ICU", "General"], "All", true, 0, 100⟩

/-- KPI `total_beds = data["bed_id"].nunique()` (line 107). -/
def total_beds (rows : List BedRecord) : Nat := (rows.map (·.bed_id)).dedup.length

/-- KPI `occupied = data["occupied"].sum()` (line 108; named `occupied_sum` here,
`occupied` being the row field). -/
def occupied_sum (rows : List BedRecord) : Nat := (rows.map (·.occupied)).sum

/-- KPI `available = total_beds - occupied` (line 109; Python subtraction is
exact, hence `ℤ`). -/
def available (rows : List BedRecord) : Int :=
  (total_beds rows : Int) - (occupied_sum rows : Int)

/-- KPI `occ_rate = (occupied / total_beds * 100) if total_beds else 0`
(line 110). -/
def occ_rate (rows : List BedRecord) : ℚ :=
  if total_beds rows ≠ 0 then (occupied_sum rows : ℚ) / (total_beds rows : ℚ) * 100 else 0

/-- Insertion step of the key sort. -/
def insertLe {α : Type} (le : α → α → Bool) (a : α) : List α → List α
  | [] => [a]
  | b :: l => if le a b then a :: b :: l else b :: insertLe le a l

/-- Insertion sort used to put group keys in pandas `groupby` order. -/
def sortLe {α : Type} (le : α → α → Bool) : List α → List α
  | [] => []
  | a :: l => insertLe le a (sortLe le l)

/-- Comparison on dates (day numbers). -/
def natLe (a b : Nat) : Bool := decide (a ≤ b)

/-- Lexicographic comparison on strings. -/
def strLe (a b : String) : Bool := decide (a < b) || a == b

/-- Lexicographic comparison on (hospital, ward) pairs. -/
def pairLe (p q : String × String) : Bool :=
  decide (p.1 < q.1) || (p.1 == q.1 && strLe p.2 q.2)

/-- The distinct values of a `Nat`-valued column, in groupby key order. -/
def natKeys (f : BedRecord → Nat) (rows : List BedRecord) : List Nat :=
  sortLe natLe (rows.map f).dedup

/-- The distinct values of a `String`-valued column, in groupby key order. -/
def strKeys (f : BedRecord → String) (rows : List BedRecord) : List String :=
  sortLe strLe (rows.map f).dedup

/-- One row of the `trend` frame (lines 121–125). -/
structure TrendRow where
  date : Nat
  total : Nat
  occupied : Nat
  occupancy_pct : ℚ
deriving DecidableEq, Repr

/-- One row of the ward/hospital/critical aggregate frames; the source names
the percentage column `usage_pct`, `occ_pct` and `pct` respectively. -/
structure UtilRow where
  key : String
  occupied : Nat
  total : Nat
  pct : ℚ
deriving DecidableEq, Repr

/-- Graph 1 `trend` (lines 121–125): group by date → distinct bed count
(`total`), occupied sum, `occupancy_pct = occupied/total*100` (line 125;
every group is nonempty, so `total ≥ 1` there). -/
def trend (rows : List BedRecord) : List TrendRow :=
  (natKeys (·.date) rows).map fun d =>
    let g := rows.filter fun r => r.date == d
    ⟨d, total_beds g, occupied_sum g,
      (occupied_sum g : ℚ) / (total_beds g : ℚ) * 100⟩

/-- Shared shape of graphs 2–4: group by a string column → occupied sum,
distinct bed total, percentage. -/
def utilBy (f : BedRecord → String) (rows : List BedRecord) : List UtilRow :=
  (strKeys f rows).map fun kv =>
    let g := rows.filter fun r => f r == kv
    ⟨kv, occupied_sum g, total_beds g,
      (occupied_sum g : ℚ) / (total_beds g : ℚ) * 100⟩

/-- Graph 2 `ward_util` (lines 134–138). -/
def ward_util (rows : List BedRecord) : List UtilRow := utilBy (·.ward) rows

/-- Graph 3 `hospital_util` (lines 147–151). -/
def hospital_util (rows : List BedRecord) : List UtilRow := utilBy (·.hospital) rows

/-- The derived `category` column (lines 160–162). -/
def category (r : BedRecord) : String :=
  if ["ICU", "Emergency"].contains r.ward then "Critical" else "Non-Critical"

/-- Graph 4 `critical_cmp` (lines 164–168): group by the 2-valued category. -/
def critical_cmp (rows : List BedRecord) : List UtilRow := utilBy category rows

/-- Graph 5 `daily_load` (line 177): group by date → occupied sum. -/
def daily_load (rows : List BedRecord) : List (Nat × Nat) :=
  (natKeys (·.date) rows).map fun d =>
    (d, occupied_sum (rows.filter fun r => r.date == d))

/-- The status label dict `{0: "Available", 1: "Occupied"}` of line 186
(and, with the keys swapped, line 214); a value outside the dict has no
label — pandas would produce a missing value. -/
def statusLabel (n : Nat) : String :=
  if n = 0 then "Available" else if n = 1 then "Occupied" else "NaN"

/-- Graph 6 `availability_dist` (lines 186–187): `value_counts` of the
status labels — one (status, count) row per label value present, ordered by
count descending (the relative order of equal counts is irrelevant here). -/
def availability_dist (rows : List BedRecord) : List (String × Nat) :=
  let vals := rows.map fun r => statusLabel r.occupied
  sortLe (fun p q => decide (q.2 ≤ p.2)) (vals.dedup.map fun v => (v, vals.count v))

/-- One row of the `heatmap` frame (lines 196–198). -/
structure HeatRow where
  hospital : String
  ward : String
  occ : ℚ
deriving DecidableEq, Repr

/-- Graph 7 `heatmap` (lines 196–198): group by (hospital, ward) → mean of
`occupied` (a fraction, sum over row count). -/
def heatmap (rows : List BedRecord) : List HeatRow :=
  (sortLe pairLe ((rows.map fun r => (r.hospital, r.ward)).dedup)).map fun p =>
    let g := rows.filter fun r => r.hospital == p.1 && r.ward == p.2
    ⟨p.1, p.2, (occupied_sum g : ℚ) / (g.length : ℚ)⟩

/-- One row of the live table (lines 213–215). -/
structure LiveRow where
  date : Nat
  hospital : String
  ward : String
  bed_id : String
  status : String
deriving DecidableEq, Repr

/-- The data table (lines 213–215): the filtered subset projected to
(date, hospital, ward, bed_id, status). -/
def live_table (rows : List BedRecord) : List LiveRow :=
  rows.map fun r => ⟨r.date, r.hospital, r.ward, r.bed_id, statusLabel r.occupied⟩

/-- A sample criteria value whose ward multiselect has been emptied. -/
def sampleEmptyWardCriteria : FilterCriteria := ⟨"All", [], "All", false, 0, 100⟩

/-- The generator invariants the aggregation claims rest on: duplicate-free
bed ids and a 0/1 `occupied` flag. -/
def WellFormed (rows : List BedRecord) : Prop :=
  ((rows.map (·.bed_id)).Nodup) ∧ ∀ r ∈ rows, r.occupied ≤ 1

/-- Concrete pipeline input whose filtered subset contains only occupied
rows: the bed-status radio set to "Occupied". -/
def occupiedOnlyCriteria : FilterCriteria :=
  ⟨"All", ["ICU", "Emergency", "General", "Maternity"], "Occupied", false, 0, 100⟩

/-- A one-day run of the generator on the all-zero raw stream. -/
def oneDayRows : List BedRecord := generate_data (fun _ => 0) [0]

/-! ## Theorems -/

theorem charVal_digitChar {d : Nat} (hd : d < 10) : charVal (Nat.digitChar d) = d := by
  interval_cases d <;> decide

theorem toDigitsCore_append :
    ∀ fuel n ds₁ ds₂, Nat.toDigitsCore 10 fuel n (ds₁ ++ ds₂) =
      Nat.toDigitsCore 10 fuel n ds₁ ++ ds₂ := by
  intro fuel
  induction fuel with
  | zero => intro n ds₁ ds₂; rfl
  | succ fuel ih =>
    intro n ds₁ ds₂
    rw [Nat.toDigitsCore, Nat.toDigitsCore]
    by_cases h0 : n / 10 = 0
    · simp [h0]
    · simp only [h0, ite_false]
      rw [← List.cons_append, ih]

theorem toDigitsCore_fuel :
    ∀ n fuel₁ fuel₂ ds, n < fuel₁ → n < fuel₂ →
      Nat.toDigitsCore 10 fuel₁ n ds = Nat.toDigitsCore 10 fuel₂ n ds := by
  intro n
  induction n using Nat.strong_induction_on with
  | _ n ih =>
    intro fuel₁ fuel₂ ds h₁ h₂
    match fuel₁, fuel₂, h₁, h₂ with
    | f₁ + 1, f₂ + 1, h₁, h₂ =>
      rw [Nat.toDigitsCore, Nat.toDigitsCore]
      by_cases h0 : n / 10 = 0
      · simp [h0]
      · simp only [h0, ite_false]
        have hlt : n / 10 < n := Nat.div_lt_self (by omega) (by norm_num)
        exact ih (n / 10) hlt f₁ f₂ _ (by omega) (by omega)

theorem ofDigitChars_toDigits : ∀ n : Nat, ofDigitChars (Nat.toDigits 10 n) = n := by
  intro n
  induction n using Nat.strong_induction_on with
  | _ n ih =>
    rw [Nat.toDigits, Nat.toDigitsCore]
    by_cases h0 : n / 10 = 0
    · have hn : n < 10 := by omega
      simp only [h0, if_pos]
      simp [ofDigitChars, Nat.mod_eq_of_lt hn, charVal_digitChar hn]
    · simp only [h0, ite_false]
      have hlt : n / 10 < n := Nat.div_lt_self (by omega) (by norm_num)
      rw [toDigitsCore_fuel (n / 10) n (n / 10 + 1) _ hlt (Nat.lt_succ_self _)]
      have hsplit : [Nat.digitChar (n % 10)] = ([] : List Char) ++ [Nat.digitChar (n % 10)] := rfl
      rw [hsplit, toDigitsCore_append]
      have hrec := ih (n / 10) hlt
      rw [Nat.toDigits] at hrec
      unfold ofDigitChars at hrec ⊢
      rw [List.foldl_append, hrec]
      simp [charVal_digitChar (Nat.mod_lt n (by norm_num : (0:Nat) < 10))]
      omega

theorem repr_injective : Function.Injective Nat.repr := by
  intro m n h
  have : ofDigitChars (Nat.toDigits 10 m) = ofDigitChars (Nat.toDigits 10 n) := by
    have hdata : (Nat.toDigits 10 m) = (Nat.toDigits 10 n) := by
      have := congrArg String.data h
      simpa [Nat.repr, List.asString] using this
    rw [hdata]
  rwa [ofDigitChars_toDigits, ofDigitChars_toDigits] at this

theorem mkBedId_injective : Function.Injective mkBedId := by
  intro m n h
  apply repr_injective
  apply String.ext
  have hdata := congrArg String.data h
  rw [mkBedId, mkBedId, String.data_append, String.data_append] at hdata
  exact List.append_cancel_left hdata

theorem genGroup_length (d : Nat) (h w : String) (occ b : Nat) :
    (genGroup d h w occ b).length = capacity w := by
  simp [genGroup]

theorem rkey_mem_genGroup {r : BedRecord} {d : Nat} {h w : String} {occ b : Nat}
    (hr : r ∈ genGroup d h w occ b) : rkey r = (d, h, w) := by
  simp only [genGroup, List.mem_map] at hr
  obtain ⟨i, _, rfl⟩ := hr
  rfl

theorem filter_genGroup_self (d : Nat) (h w : String) (occ b : Nat) :
    (genGroup d h w occ b).filter (fun r => decide (rkey r = (d, h, w)))
      = genGroup d h w occ b := by
  rw [List.filter_eq_self]
  intro r hr
  simp [rkey_mem_genGroup hr]

theorem filter_genGroup_ne {d d' : Nat} {h w h' w' : String} {occ b : Nat}
    (hne : (d', h', w') ≠ (d, h, w)) :
    (genGroup d' h' w' occ b).filter (fun r => decide (rkey r = (d, h, w))) = [] := by
  rw [List.filter_eq_nil_iff]
  intro r hr
  simp [rkey_mem_genGroup hr, hne]

theorem rkey_mem_genAux {raw : Nat → Nat} {r : BedRecord} :
    ∀ {gs : List (Nat × String × String)} {k b : Nat},
      r ∈ genAux raw gs k b → rkey r ∈ gs := by
  intro gs
  induction gs with
  | nil => intro k b hr; simp [genAux] at hr
  | cons g gs ih =>
    intro k b hr
    obtain ⟨d, h, w⟩ := g
    simp only [genAux, List.mem_append] at hr
    rcases hr with hr | hr
    · rw [rkey_mem_genGroup hr]; exact List.mem_cons_self _ _
    · exact List.mem_cons_of_mem _ (ih hr)

theorem filter_genAux_eq {raw : Nat → Nat} {d : Nat} {h w : String} :
    ∀ {gs : List (Nat × String × String)} {k b : Nat},
      gs.Nodup → (d, h, w) ∈ gs →
      ∃ k' b', (genAux raw gs k b).filter (fun r => decide (rkey r = (d, h, w)))
        = genGroup d h w (randint raw k' (capacity w / 2) (capacity w)) b' := by
  intro gs
  induction gs with
  | nil => intro k b _ hmem; simp at hmem
  | cons g gs ih =>
    intro k b hnd hmem
    obtain ⟨d', h', w'⟩ := g
    rw [List.nodup_cons] at hnd
    simp only [genAux, List.filter_append]
    by_cases heq : (d', h', w') = (d, h, w)
    · simp only [Prod.mk.injEq] at heq
      obtain ⟨rfl, rfl, rfl⟩ := heq
      rw [filter_genGroup_self]
      have hnil : (genAux raw gs (k + 1) (b + capacity w')).filter
          (fun r => decide (rkey r = (d', h', w'))) = [] := by
        rw [List.filter_eq_nil_iff]
        intro r hr
        simp only [decide_eq_true_eq]
        intro hk
        exact hnd.1 (hk ▸ rkey_mem_genAux hr)
      rw [hnil, List.append_nil]
      exact ⟨k, b, rfl⟩
    · rw [filter_genGroup_ne heq, List.nil_append]
      have hmem' : (d, h, w) ∈ gs := by
        rcases List.mem_cons.mp hmem with hx | hx
        · exact absurd hx.symm heq
        · exact hx
      exact ih hnd.2 hmem'

theorem perDate_eq_map (d : Nat) : perDate d = pairsHW.map fun p => (d, p.1, p.2) := rfl

theorem groups_eq_flatMap (dates : List Nat) : groups dates = dates.flatMap perDate := rfl

theorem fst_mem_perDate {d : Nat} {g : Nat × String × String} (hg : g ∈ perDate d) :
    g.1 = d := by
  rw [perDate_eq_map] at hg
  obtain ⟨p, _, rfl⟩ := List.mem_map.mp hg
  rfl

theorem perDate_nodup (d : Nat) : (perDate d).Nodup := by
  rw [perDate_eq_map]
  refine List.Nodup.map ?_ (by decide)
  intro p q hpq
  simp only [Prod.mk.injEq] at hpq
  exact Prod.ext hpq.2.1 hpq.2.2

theorem groups_nodup {dates : List Nat} (hnd : dates.Nodup) : (groups dates).Nodup := by
  rw [groups_eq_flatMap, List.nodup_flatMap]
  refine ⟨fun d _ => perDate_nodup d, ?_⟩
  refine hnd.imp ?_
  intro d₁ d₂ hne
  intro g hg₁ hg₂
  exact hne ((fst_mem_perDate hg₁).symm.trans (fst_mem_perDate hg₂))

theorem mem_groups {dates : List Nat} {d : Nat} {h w : String} :
    (d, h, w) ∈ groups dates ↔ d ∈ dates ∧ h ∈ hospitals ∧ w ∈ wards := by
  constructor
  · intro hg
    rw [groups_eq_flatMap] at hg
    obtain ⟨d', hd', hg⟩ := List.mem_flatMap.mp hg
    rw [perDate_eq_map] at hg
    obtain ⟨p, hp, he⟩ := List.mem_map.mp hg
    simp only [Prod.mk.injEq] at he
    obtain ⟨rfl, rfl, rfl⟩ := he
    refine ⟨hd', ?_, ?_⟩ <;> fin_cases hp <;> decide
  · rintro ⟨hd, hh, hw⟩
    rw [groups_eq_flatMap]
    refine List.mem_flatMap.mpr ⟨d, hd, ?_⟩
    rw [perDate_eq_map]
    exact List.mem_map.mpr ⟨(h, w), by fin_cases hh <;> fin_cases hw <;> decide, rfl⟩

/-- The rows of one (date, hospital, ward) group of the generated dataset are
exactly one `genGroup` block, whose occupied count is one `randint` draw. -/
theorem groupRows_eq (raw : Nat → Nat) {dates : List Nat} (hnd : dates.Nodup)
    {d : Nat} {h w : String} (hd : d ∈ dates) (hh : h ∈ hospitals) (hw : w ∈ wards) :
    ∃ k b, groupRows raw dates d h w
      = genGroup d h w (randint raw k (capacity w / 2) (capacity w)) b :=
  filter_genAux_eq (groups_nodup hnd) (mem_groups.mpr ⟨hd, hh, hw⟩)

theorem capacity_pos {w : String} (hw : w ∈ wards) : 0 < capacity w := by
  fin_cases hw <;> decide

theorem randint_bounds (raw : Nat → Nat) (k : Nat) {lo hi : Nat} (hlh : lo < hi) :
    lo ≤ randint raw k lo hi ∧ randint raw k lo hi < hi := by
  have hmod : raw k % (hi - lo) < hi - lo := Nat.mod_lt _ (by omega)
  unfold randint
  omega

/-- C1: for every (date, hospital, ward) triple of the base dataset, the
generator produces exactly as many BedRecords as that ward's fixed capacity,
and the fixed capacities are ICU 20, Emergency 30, General 50, Maternity 25.
(The dates of `pd.date_range` are pairwise distinct, hence the `Nodup`
hypothesis.) -/
theorem C1_group_row_count (raw : Nat → Nat) {dates : List Nat} (hnd : dates.Nodup)
    {d : Nat} {h w : String} (hd : d ∈ dates) (hh : h ∈ hospitals) (hw : w ∈ wards) :
    (groupRows raw dates d h w).length = capacity w
    ∧ capacity "ICU" = 20 ∧ capacity "Emergency" = 30
    ∧ capacity "General" = 50 ∧ capacity "Maternity" = 25 := by
  obtain ⟨k, b, he⟩ := groupRows_eq raw hnd hd hh hw
  exact ⟨by rw [he, genGroup_length], rfl, rfl, rfl, rfl⟩

theorem C1_witness :
    (groupRows (fun _ => 0) [0, 1] 0 "City Hospital" "ICU").length = capacity "ICU"
    ∧ capacity "ICU" = 20 ∧ capacity "Emergency" = 30
    ∧ capacity "General" = 50 ∧ capacity "Maternity" = 25 :=
  C1_group_row_count (fun _ => 0) (by decide) (by decide) (by decide) (by decide)

/-- C2: for every (date, hospital, ward) group of the base dataset, the
drawn occupied count satisfies `⌊capacity·0.5⌋ ≤ occ < capacity`, and exactly
the first `occ` bed slots of the group (in generation order) are occupied,
the remaining slots available. -/
theorem C2_occupied_bounds_and_order (raw : Nat → Nat) {dates : List Nat}
    (hnd : dates.Nodup) {d : Nat} {h w : String}
    (hd : d ∈ dates) (hh : h ∈ hospitals) (hw : w ∈ wards) :
    ∃ occ, capacity w / 2 ≤ occ ∧ occ < capacity w ∧
      ∀ (i : Nat) (hi : i < (groupRows raw dates d h w).length),
        ((groupRows raw dates d h w).get ⟨i, hi⟩).occupied
          = if i < occ then 1 else 0 := by
  obtain ⟨k, b, he⟩ := groupRows_eq raw hnd hd hh hw
  have hlh : capacity w / 2 < capacity w :=
    Nat.div_lt_self (capacity_pos hw) (by norm_num)
  obtain ⟨hle, hlt⟩ := randint_bounds raw k hlh
  refine ⟨randint raw k (capacity w / 2) (capacity w), hle, hlt, ?_⟩
  intro i hi
  rw [List.get_of_eq he ⟨i, hi⟩]
  simp [genGroup, List.get_eq_getElem]

theorem C2_witness :
    ∃ occ, capacity "ICU" / 2 ≤ occ ∧ occ < capacity "ICU" ∧
      ∀ (i : Nat) (hi : i < (groupRows (fun _ => 0) [0, 1] 0 "City Hospital" "ICU").length),
        ((groupRows (fun _ => 0) [0, 1] 0 "City Hospital" "ICU").get ⟨i, hi⟩).occupied
          = if i < occ then 1 else 0 :=
  C2_occupied_bounds_and_order (fun _ => 0) (by decide) (by decide) (by decide) (by decide)

theorem genGroup_map_bed_id (d : Nat) (h w : String) (occ b : Nat) :
    (genGroup d h w occ b).map (·.bed_id) = (List.range' b (capacity w)).map mkBedId := by
  simp only [genGroup, List.map_map, List.range'_eq_map_range]
  rfl

theorem genAux_map_bed_id (raw : Nat → Nat) :
    ∀ (gs : List (Nat × String × String)) (k b : Nat),
      (genAux raw gs k b).map (·.bed_id) = (List.range' b (sumCap gs)).map mkBedId := by
  intro gs
  induction gs with
  | nil => intro k b; simp [genAux, sumCap]
  | cons g gs ih =>
    intro k b
    obtain ⟨d, h, w⟩ := g
    simp only [genAux, List.map_append, genGroup_map_bed_id, ih]
    rw [← List.map_append]
    have : b + capacity w = b + 1 * capacity w := by ring
    rw [this, List.range'_append]
    have : sumCap ((d, h, w) :: gs) = sumCap gs + capacity w := by
      simp [sumCap]; ring
    rw [this]

theorem genAux_length (raw : Nat → Nat) (gs : List (Nat × String × String)) (k b : Nat) :
    (genAux raw gs k b).length = sumCap gs := by
  have := congrArg List.length (genAux_map_bed_id raw gs k b)
  simpa using this

/-- C3: across the entire generated dataset, the bed ids are the strings
`B-1, B-2, …` in order — the decimal tags of the strictly increasing counter
starting at 1 — and in particular they are globally unique (no duplicates
across dates, hospitals or wards). -/
theorem C3_bed_ids_unique (raw : Nat → Nat) (dates : List Nat) :
    (generate_data raw dates).map (·.bed_id)
      = (List.range' 1 ((generate_data raw dates).length)).map mkBedId
    ∧ ((generate_data raw dates).map (·.bed_id)).Nodup := by
  have hmap := genAux_map_bed_id raw (groups dates) 0 1
  have hlen : (generate_data raw dates).length = sumCap (groups dates) :=
    genAux_length raw (groups dates) 0 1
  constructor
  · rw [hlen]; exact hmap
  · rw [generate_data, hmap]
    exact (List.nodup_range' _ _).map mkBedId_injective

/-- C4 counterexample: same seed (42), same calendar day, but two reference
instants one microsecond apart — `datetime.today()`'s time-of-day flows
through `pd.date_range` into every row's `date`, so already the first rows
of the two runs differ and the outputs are not identical. -/
theorem C4_counterexample :
    calendarDay (100 * usPerDay) = calendarDay (100 * usPerDay + 1)
    ∧ datasetAt 42 (100 * usPerDay) ≠ datasetAt 42 (100 * usPerDay + 1) := by
  constructor
  · decide
  · intro he
    have h := congrArg (fun l => l.head?.map (·.date)) he
    dsimp only at h
    have h1 : (datasetAt 42 (100 * usPerDay)).head?.map (·.date)
        = some (71 * usPerDay) := by decide
    have h2 : (datasetAt 42 (100 * usPerDay + 1)).head?.map (·.date)
        = some (71 * usPerDay + 1) := by decide
    rw [h1, h2] at h
    exact absurd h (by decide)

/-- C4 as amended: the generated dataset is a deterministic (pure) function
of the seed and the exact reference instant `datetime.today()` returns —
two runs with the same seed and the same reference timestamp produce
identical output.  The same calendar day alone does not suffice: the
timestamp's time-of-day enters every row's `date`. -/
theorem C4_deterministic_instant (s₁ s₂ t₁ t₂ : Nat) (hs : s₁ = s₂) (ht : t₁ = t₂) :
    datasetAt s₁ t₁ = datasetAt s₂ t₂ := by rw [hs, ht]

theorem C4_instant_witness :
    datasetAt 42 (100 * usPerDay) = datasetAt 42 (100 * usPerDay) :=
  C4_deterministic_instant 42 42 (100 * usPerDay) (100 * usPerDay) rfl rfl

theorem apply_filters_eq_foldl (c : FilterCriteria) (rows : List BedRecord) :
    apply_filters c rows = [0, 1, 2, 3, 4].foldl (applyStep c) rows := by
  have hA : ∀ s t : String, (s == t) = decide (s = t) := fun s t => by
    by_cases h : s = t <;> simp [h]
  simp only [apply_filters, applyStep, stepPred, List.foldl_cons, List.foldl_nil, hA]
  by_cases h0 : c.hospital = "All" <;> by_cases h2 : c.critical_view <;>
    by_cases h3a : c.bed_status = "Available" <;> by_cases h3b : c.bed_status = "Occupied" <;>
      simp [h0, h2, h3a, h3b]

theorem applyStep_comm (c : FilterCriteria) (rows : List BedRecord) (i j : Nat) :
    applyStep c (applyStep c rows i) j = applyStep c (applyStep c rows j) i := by
  simp only [applyStep, List.filter_filter]
  congr 1
  funext r
  exact Bool.and_comm _ _

theorem foldl_applyStep_perm (c : FilterCriteria) :
    ∀ {l₁ l₂ : List Nat}, l₁.Perm l₂ →
      ∀ rows, l₁.foldl (applyStep c) rows = l₂.foldl (applyStep c) rows := by
  intro l₁ l₂ hp
  induction hp with
  | nil => intro rows; rfl
  | cons x _ ih => intro rows; simp only [List.foldl_cons]; exact ih _
  | swap x y l => intro rows; simp only [List.foldl_cons]; rw [applyStep_comm]
  | trans _ _ ih₁ ih₂ => intro rows; rw [ih₁, ih₂]

/-- C5: applying the five row-level filters in any order yields the same
filtered subset as the source's sequential order — each step is an
independent row predicate, so the steps commute. -/
theorem C5_filter_order_irrelevant (c : FilterCriteria) (rows : List BedRecord)
    (order : List Nat) (hperm : order.Perm [0, 1, 2, 3, 4]) :
    order.foldl (applyStep c) rows = apply_filters c rows := by
  rw [foldl_applyStep_perm c hperm rows, apply_filters_eq_foldl]

theorem C5_witness :
    [4, 3, 2, 1, 0].foldl (applyStep sampleCriteria) sampleRows
      = apply_filters sampleCriteria sampleRows :=
  C5_filter_order_irrelevant sampleCriteria sampleRows [4, 3, 2, 1, 0] (by decide)

theorem mem_apply_filters {c : FilterCriteria} {rows : List BedRecord} {r : BedRecord}
    (hr : r ∈ apply_filters c rows) :
    r ∈ rows ∧ stepPred c 0 r = true ∧ stepPred c 1 r = true ∧ stepPred c 2 r = true
      ∧ stepPred c 3 r = true ∧ stepPred c 4 r = true := by
  rw [apply_filters_eq_foldl] at hr
  simp only [List.foldl_cons, List.foldl_nil, applyStep, List.mem_filter] at hr
  tauto

/-- C7: with the critical-only checkbox enabled, the filtered subset only
contains rows whose ward is both in the explicitly selected ward set and in
the critical set (an intersection, not a replacement); in particular with
wards ICU and General selected, every surviving row's ward is ICU. -/
theorem C7_critical_intersection (c : FilterCriteria) (rows : List BedRecord)
    (hcv : c.critical_view = true) :
    (∀ r ∈ apply_filters c rows,
        r.ward ∈ c.ward ∧ (r.ward = "ICU" ∨ r.ward = "Emergency"))
    ∧ (c.ward = ["ICU", "General"] →
        ∀ r ∈ apply_filters c rows, r.ward = "ICU") := by
  have key : ∀ r ∈ apply_filters c rows,
      r.ward ∈ c.ward ∧ (r.ward = "ICU" ∨ r.ward = "Emergency") := by
    intro r hr
    obtain ⟨-, -, h1, h2, -, -⟩ := mem_apply_filters hr
    refine ⟨?_, ?_⟩
    · simpa [stepPred] using h1
    · simp [stepPred, hcv] at h2
      tauto
  refine ⟨key, ?_⟩
  intro hcw r hr
  obtain ⟨hw1, hw2⟩ := key r hr
  rw [hcw] at hw1
  rcases hw2 with h | h
  · exact h
  · rw [h] at hw1
    exact absurd hw1 (by decide)

theorem C7_witness :
    (∀ r ∈ apply_filters sampleCriticalCriteria sampleRows,
        r.ward ∈ sampleCriticalCriteria.ward ∧ (r.ward = "ICU" ∨ r.ward = "Emergency"))
    ∧ (sampleCriticalCriteria.ward = ["ICU", "General"] →
        ∀ r ∈ apply_filters sampleCriticalCriteria sampleRows, r.ward = "ICU") :=
  C7_critical_intersection sampleCriticalCriteria sampleRows rfl

/-- C6: when the ward multiselect is emptied, the filtered subset is empty,
every aggregate view (trend, ward utilization, hospital comparison,
critical split, daily pressure, availability distribution, heatmap, live
table) is empty, and the KPI occupancy percentage is exactly 0 — every
stage degrades to an empty/zero value, no error is possible (all the
embedded stages are total functions). -/
theorem C6_empty_ward_set (c : FilterCriteria) (rows : List BedRecord)
    (hw : c.ward = []) :
    apply_filters c rows = []
    ∧ trend (apply_filters c rows) = []
    ∧ ward_util (apply_filters c rows) = []
    ∧ hospital_util (apply_filters c rows) = []
    ∧ critical_cmp (apply_filters c rows) = []
    ∧ daily_load (apply_filters c rows) = []
    ∧ availability_dist (apply_filters c rows) = []
    ∧ heatmap (apply_filters c rows) = []
    ∧ live_table (apply_filters c rows) = []
    ∧ occ_rate (apply_filters c rows) = 0 := by
  have hempty : apply_filters c rows = [] := by
    rw [apply_filters_eq_foldl]
    simp [applyStep, stepPred, hw]
  rw [hempty]
  exact ⟨rfl, rfl, rfl, rfl, rfl, rfl, rfl, rfl, rfl, rfl⟩

theorem C6_witness :
    apply_filters sampleEmptyWardCriteria sampleRows = []
    ∧ trend (apply_filters sampleEmptyWardCriteria sampleRows) = []
    ∧ ward_util (apply_filters sampleEmptyWardCriteria sampleRows) = []
    ∧ hospital_util (apply_filters sampleEmptyWardCriteria sampleRows) = []
    ∧ critical_cmp (apply_filters sampleEmptyWardCriteria sampleRows) = []
    ∧ daily_load (apply_filters sampleEmptyWardCriteria sampleRows) = []
    ∧ availability_dist (apply_filters sampleEmptyWardCriteria sampleRows) = []
    ∧ heatmap (apply_filters sampleEmptyWardCriteria sampleRows) = []
    ∧ live_table (apply_filters sampleEmptyWardCriteria sampleRows) = []
    ∧ occ_rate (apply_filters sampleEmptyWardCriteria sampleRows) = 0 :=
  C6_empty_ward_set sampleEmptyWardCriteria sampleRows rfl

theorem occupied_le_one_genAux {raw : Nat → Nat} {r : BedRecord} :
    ∀ {gs : List (Nat × String × String)} {k b : Nat},
      r ∈ genAux raw gs k b → r.occupied ≤ 1 := by
  intro gs
  induction gs with
  | nil => intro k b hr; simp [genAux] at hr
  | cons g gs ih =>
    intro k b hr
    obtain ⟨d, h, w⟩ := g
    simp only [genAux, List.mem_append] at hr
    rcases hr with hr | hr
    · simp only [genGroup, List.mem_map] at hr
      obtain ⟨i, _, rfl⟩ := hr
      dsimp only
      split <;> omega
    · exact ih hr

theorem generate_data_wellFormed (raw : Nat → Nat) (dates : List Nat) :
    WellFormed (generate_data raw dates) := by
  constructor
  · rw [generate_data, genAux_map_bed_id]
    exact (List.nodup_range' _ _).map mkBedId_injective
  · intro r hr
    exact occupied_le_one_genAux hr

theorem wellFormed_sublist {rows rows' : List BedRecord}
    (hs : rows'.Sublist rows) (hwf : WellFormed rows) : WellFormed rows' :=
  ⟨(hs.map (·.bed_id)).nodup hwf.1, fun r hr => hwf.2 r (hs.subset hr)⟩

theorem apply_filters_sublist (c : FilterCriteria) (rows : List BedRecord) :
    (apply_filters c rows).Sublist rows := by
  rw [apply_filters_eq_foldl]
  simp only [List.foldl_cons, List.foldl_nil, applyStep]
  exact (List.filter_sublist _).trans ((List.filter_sublist _).trans
    ((List.filter_sublist _).trans ((List.filter_sublist _).trans
      (List.filter_sublist _))))

theorem occupied_le_total {g : List BedRecord} (hwf : WellFormed g) :
    occupied_sum g ≤ total_beds g := by
  have h1 : total_beds g = g.length := by
    rw [total_beds, List.dedup_eq_self.mpr hwf.1, List.length_map]
  have h2 : occupied_sum g ≤ g.length := by
    have hle : (g.map (·.occupied)).sum ≤ (g.map (·.occupied)).length • 1 := by
      refine List.sum_le_card_nsmul _ 1 ?_
      intro x hx
      obtain ⟨r, hr, rfl⟩ := List.mem_map.mp hx
      exact hwf.2 r hr
    simpa [occupied_sum] using hle
  omega

theorem pct_bounds {o t : Nat} (h : o ≤ t) :
    0 ≤ (o : ℚ) / (t : ℚ) * 100 ∧ (o : ℚ) / (t : ℚ) * 100 ≤ 100 := by
  rcases Nat.eq_zero_or_pos t with rfl | ht
  · have h0 : o = 0 := Nat.le_zero.mp h
    simp [h0]
  · have htq : (0 : ℚ) < t := by exact_mod_cast ht
    refine ⟨by positivity, ?_⟩
    have hratio : (o : ℚ) / t ≤ 1 := by
      rw [div_le_one htq]
      exact_mod_cast h
    nlinarith

theorem utilBy_pct_in_range {rows : List BedRecord} (hwf : WellFormed rows)
    (f : BedRecord → String) :
    ∀ row ∈ utilBy f rows, 0 ≤ row.pct ∧ row.pct ≤ 100 := by
  intro row hrow
  obtain ⟨kv, _, rfl⟩ := List.mem_map.mp hrow
  exact pct_bounds (occupied_le_total (wellFormed_sublist (List.filter_sublist _) hwf))

/-- C8: on the generated dataset, under any FilterCriteria, every occupancy
percentage the pipeline computes — the KPI `occ_rate` and the per-group
percentages of the trend, ward-utilization, hospital-comparison and
critical-split views — lies in [0, 100], and the KPI is exactly 0 when the
total bed count is 0 (the views' groups are nonempty, so a zero total never
arises there). -/
theorem C8_percentages_in_range (raw : Nat → Nat) (dates : List Nat) (c : FilterCriteria) :
    0 ≤ occ_rate (apply_filters c (generate_data raw dates))
    ∧ occ_rate (apply_filters c (generate_data raw dates)) ≤ 100
    ∧ (total_beds (apply_filters c (generate_data raw dates)) = 0 →
        occ_rate (apply_filters c (generate_data raw dates)) = 0)
    ∧ (∀ row ∈ trend (apply_filters c (generate_data raw dates)),
        0 ≤ row.occupancy_pct ∧ row.occupancy_pct ≤ 100)
    ∧ (∀ row ∈ ward_util (apply_filters c (generate_data raw dates)),
        0 ≤ row.pct ∧ row.pct ≤ 100)
    ∧ (∀ row ∈ hospital_util (apply_filters c (generate_data raw dates)),
        0 ≤ row.pct ∧ row.pct ≤ 100)
    ∧ (∀ row ∈ critical_cmp (apply_filters c (generate_data raw dates)),
        0 ≤ row.pct ∧ row.pct ≤ 100) := by
  have hwf : WellFormed (apply_filters c (generate_data raw dates)) :=
    wellFormed_sublist (apply_filters_sublist c _) (generate_data_wellFormed raw dates)
  have hkpi : 0 ≤ occ_rate (apply_filters c (generate_data raw dates))
      ∧ occ_rate (apply_filters c (generate_data raw dates)) ≤ 100 := by
    rw [occ_rate]
    split
    · exact pct_bounds (occupied_le_total hwf)
    · norm_num
  refine ⟨hkpi.1, hkpi.2, ?_, ?_, ?_, ?_, ?_⟩
  · intro h0
    rw [occ_rate, if_neg (by omega)]
  · intro row hrow
    obtain ⟨d, _, rfl⟩ := List.mem_map.mp hrow
    exact pct_bounds (occupied_le_total (wellFormed_sublist (List.filter_sublist _) hwf))
  · exact utilBy_pct_in_range hwf _
  · exact utilBy_pct_in_range hwf _
  · exact utilBy_pct_in_range hwf _

theorem occupied_sum_split {rows : List BedRecord} (h : ∀ r ∈ rows, r.occupied ≤ 1) :
    occupied_sum rows + ((rows.filter fun r => r.occupied == 0).length) = rows.length := by
  induction rows with
  | nil => rfl
  | cons r rows ih =>
    have hr := h r (List.mem_cons_self _ _)
    have ih' := ih fun x hx => h x (List.mem_cons_of_mem _ hx)
    interval_cases hro : r.occupied <;>
      simp [occupied_sum, List.filter_cons, hro] at ih' ⊢ <;> omega

/-- C10: for every FilterCriteria over the generated dataset, the KPI total
(`nunique` of bed ids) equals the filtered row count, and consequently the
KPI available count (total − occupied) equals the number of rows with
`occupied = 0` — a consequence of dataset-wide bed-id uniqueness. -/
theorem C10_kpi_identities (raw : Nat → Nat) (dates : List Nat) (c : FilterCriteria) :
    total_beds (apply_filters c (generate_data raw dates))
      = (apply_filters c (generate_data raw dates)).length
    ∧ available (apply_filters c (generate_data raw dates))
      = (((apply_filters c (generate_data raw dates)).filter
          fun r => r.occupied == 0).length : Int) := by
  have hwf : WellFormed (apply_filters c (generate_data raw dates)) :=
    wellFormed_sublist (apply_filters_sublist c _) (generate_data_wellFormed raw dates)
  have h1 : total_beds (apply_filters c (generate_data raw dates))
      = (apply_filters c (generate_data raw dates)).length := by
    rw [total_beds, List.dedup_eq_self.mpr hwf.1, List.length_map]
  have h2 := occupied_sum_split hwf.2
  refine ⟨h1, ?_⟩
  rw [available, h1]
  omega

theorem insertLe_perm {α : Type} (le : α → α → Bool) (a : α) :
    ∀ l : List α, (insertLe le a l).Perm (a :: l) := by
  intro l
  induction l with
  | nil => exact List.Perm.refl _
  | cons b l ih =>
    rw [insertLe]
    by_cases h : le a b
    · rw [if_pos h]
    · rw [if_neg h]
      exact (ih.cons b).trans (List.Perm.swap a b l)

theorem sortLe_perm {α : Type} (le : α → α → Bool) :
    ∀ l : List α, (sortLe le l).Perm l := by
  intro l
  induction l with
  | nil => exact List.Perm.refl _
  | cons a l ih => exact (insertLe_perm le a _).trans (ih.cons a)

theorem statusLabel_beq_available (n : Nat) :
    (statusLabel n == "Available") = (n == 0) := by
  rcases n with _ | _ | n <;> rfl

theorem statusLabel_beq_occupied (n : Nat) :
    (statusLabel n == "Occupied") = (n == 1) := by
  rcases n with _ | _ | n <;> rfl

theorem count_statusLabel_available (rows : List BedRecord) :
    ((rows.map fun r => statusLabel r.occupied).count "Available")
      = ((rows.filter fun r => r.occupied == 0).length) := by
  rw [List.count_eq_countP, List.countP_map]
  have hp : ((fun x => x == "Available") ∘ fun r : BedRecord => statusLabel r.occupied)
      = fun r : BedRecord => r.occupied == 0 := by
    funext r
    exact statusLabel_beq_available r.occupied
  rw [hp, List.countP_eq_length_filter]

theorem count_statusLabel_occupied (rows : List BedRecord) :
    ((rows.map fun r => statusLabel r.occupied).count "Occupied")
      = ((rows.filter fun r => r.occupied == 1).length) := by
  rw [List.count_eq_countP, List.countP_map]
  have hp : ((fun x => x == "Occupied") ∘ fun r : BedRecord => statusLabel r.occupied)
      = fun r : BedRecord => r.occupied == 1 := by
    funext r
    exact statusLabel_beq_occupied r.occupied
  rw [hp, List.countP_eq_length_filter]

set_option maxRecDepth 40000 in
/-- C9 counterexample: with the bed-status filter set to "Occupied" the
filtered subset contains no Available rows, and `value_counts` returns a
single row — not a 2-row output as claimed. -/
theorem C9_counterexample :
    (availability_dist (apply_filters occupiedOnlyCriteria oneDayRows)).length ≠ 2 := by
  decide

/-- C9 as amended: the availability distribution has one (status, count) row
per status value present in the filtered subset — its key column is exactly
the distinct status labels (2 rows only when both statuses occur) — and the
counts are the raw counts of Available and Occupied rows. -/
theorem C9_amended_value_counts (rows : List BedRecord)
    (hb : ∀ r ∈ rows, r.occupied ≤ 1) :
    ((availability_dist rows).map Prod.fst).Perm
        ((rows.map fun r => statusLabel r.occupied).dedup)
    ∧ ∀ p ∈ availability_dist rows,
        (p.1 = "Available" ∧ p.2 = ((rows.filter fun r => r.occupied == 0).length))
      ∨ (p.1 = "Occupied" ∧ p.2 = ((rows.filter fun r => r.occupied == 1).length)) := by
  simp only [availability_dist]
  constructor
  · have hperm := (sortLe_perm (fun p q : String × Nat => decide (q.2 ≤ p.2))
      (((rows.map fun r => statusLabel r.occupied).dedup).map
        fun v => (v, (rows.map fun r => statusLabel r.occupied).count v))).map Prod.fst
    refine hperm.trans ?_
    rw [List.map_map]
    have : (Prod.fst ∘ fun v : String =>
        (v, (rows.map fun r => statusLabel r.occupied).count v)) = id := by
      funext v; rfl
    rw [this, List.map_id]
  · intro p hp
    have hmem : p ∈ ((rows.map fun r => statusLabel r.occupied).dedup).map
        fun v => (v, (rows.map fun r => statusLabel r.occupied).count v) :=
      ((sortLe_perm _ _).mem_iff).mp hp
    obtain ⟨v, hv, rfl⟩ := List.mem_map.mp hmem
    have hv' : v ∈ rows.map fun r => statusLabel r.occupied := List.mem_dedup.mp hv
    obtain ⟨r, hr, rfl⟩ := List.mem_map.mp hv'
    have hro := hb r hr
    interval_cases hocc : r.occupied
    · left
      exact ⟨rfl, count_statusLabel_available rows⟩
    · right
      exact ⟨rfl, count_statusLabel_occupied rows⟩

theorem C9_amended_witness :
    ((availability_dist oneDayRows).map Prod.fst).Perm
        ((oneDayRows.map fun r => statusLabel r.occupied).dedup)
    ∧ ∀ p ∈ availability_dist oneDayRows,
        (p.1 = "Available" ∧ p.2 = ((oneDayRows.filter fun r => r.occupied == 0).length))
      ∨ (p.1 = "Occupied" ∧ p.2 = ((oneDayRows.filter fun r => r.occupied == 1).length)) :=
  C9_amended_value_counts oneDayRows (fun _ hr => occupied_le_one_genAux hr)
